import Mathlib

/-!
Verification of the core pipeline of `cc-personality` (`src/cli.mjs`):
session reconstruction (the per-file body of `scanSessions`, lines 92-109),
stats aggregation (`computeStats`, lines 204-268) and archetype
classification (`ARCHETYPES` lines 119-200, `getArchetype` lines 272-301).

Modelling conventions:
* JavaScript `number` arithmetic (IEEE doubles) is modelled over `ℚ`, so the
  equalities the spec states "within floating-point tolerance" hold exactly.
* A `Date` instant is its epoch-millisecond value as a rational.
  `getHours`, `getDay` and the `toDateString` calendar date are modelled
  under a fixed zero-offset (UTC) timezone: `getHours ms` is the
  floor-division hour of day, `getDay ms` the weekday with epoch day 0
  (1970-01-01) a Thursday (index 4, 0 = Sunday), and `dateOf ms` the epoch
  day index standing for the distinct calendar date.  Every property proved
  below is independent of the fixed offset.
* Description / display strings of the archetypes are presentation data
  inspected by no predicate; the model keeps each rule's `id` and
  `condition` only.  The source's `getArchetype` swaps the `machine` entry
  for a copy whose description interpolates `stats.maxStreak`; the copy has
  the identical `id` and `condition`, which the model reproduces.
-/

namespace CCPersonality

/-- One reconstructed work session: the `{ start, end, hours }` objects
pushed by `scanSessions`.  `start` and `endTime` are epoch milliseconds
(`end` is a Lean keyword, hence `endTime`, the source's local name). -/
structure Session where
  start : ℚ
  endTime : ℚ
  hours : ℚ
deriving DecidableEq

/-- One raw observation: the first and last parseable timestamp of one
`.jsonl` transcript (`parseTimestamp(lines.firstLine)` /
`parseTimestamp(lines.lastLine)`).  A file whose first timestamp does not
parse is skipped before reconstruction, so `firstTimestamp` is present;
the last timestamp may be absent (`end || start` in the source). -/
structure RawObservation where
  firstTimestamp : ℚ
  lastTimestamp : Option ℚ
deriving DecidableEq

/-- `const SESSION_GAP_HOURS = 0.5` (cli.mjs line 66). -/
def SESSION_GAP_HOURS : ℚ := 0.5

/-- The raw span of an observation in hours:
`(endTime - start) / 3600000` with `endTime = end || start`. -/
def durationHoursOf (obs : RawObservation) : ℚ :=
  (obs.lastTimestamp.getD obs.firstTimestamp - obs.firstTimestamp) / 3600000

/-- Per-observation body of `scanSessions` (cli.mjs lines 96-109): a raw
span shorter than `SESSION_GAP_HOURS * 2` hours becomes a single session
with `hours = max(durationHours, 0.01)`; a longer span is split into
`numSubs = max(1, ceil(durationHours / 2))` sub-sessions, the i-th starting
at `start + (i / numSubs) * (endTime - start)` with `end` equal to its own
start and `hours = durationHours / numSubs`. -/
def reconstruct (obs : RawObservation) : List Session :=
  let start := obs.firstTimestamp
  let endTime := obs.lastTimestamp.getD start
  let durationHours := (endTime - start) / 3600000
  if durationHours < SESSION_GAP_HOURS * 2 then
    [{ start := start, endTime := endTime, hours := max durationHours 0.01 }]
  else
    let numSubs := max 1 (Int.ceil (durationHours / 2)).toNat
    (List.range numSubs).map fun i : ℕ =>
      let subStart := start + ((i : ℚ) / (numSubs : ℚ)) * (endTime - start)
      { start := subStart, endTime := subStart, hours := durationHours / numSubs }

/-- `Date.prototype.getHours` under the fixed zero offset: hour of day in
`0..23` of an epoch-millisecond instant. -/
def getHours (ms : ℚ) : ℕ := (⌊ms / 3600000⌋ % 24).toNat

/-- `Date.prototype.getDay` under the fixed zero offset: weekday in `0..6`
with 0 = Sunday; epoch day 0 was a Thursday (index 4). -/
def getDay (ms : ℚ) : ℕ := ((⌊ms / 86400000⌋ + 4) % 7).toNat

/-- The calendar date underlying `toDateString`, as an epoch day index. -/
def dateOf (ms : ℚ) : ℤ := ⌊ms / 86400000⌋

/-- `hourBuckets[h]` after the filling loop: the number of sessions whose
start's hour of day is `h`. -/
def hourBucket (sessions : List Session) (h : ℕ) : ℕ :=
  (sessions.filter fun s => decide (getHours s.start = h)).length

/-- `dayBuckets[d]` after the filling loop: the number of sessions whose
start's weekday is `d` (0 = Sunday). -/
def dayBucket (sessions : List Session) (d : ℕ) : ℕ :=
  (sessions.filter fun s => decide (getDay s.start = d)).length

/-- `totalHours = sessions.reduce((s, x) => s + x.hours, 0)`. -/
def totalHoursOf (sessions : List Session) : ℚ :=
  sessions.foldl (fun acc s => acc + s.hours) 0

/-- `hourBuckets.slice(0, 5)` summed plus `hourBuckets.slice(22)` summed:
the night-band session count (hours 0-4 and 22-23). -/
def nightCntOf (sessions : List Session) : ℕ :=
  (∑ h ∈ Finset.range 5, hourBucket sessions h) +
    ∑ h ∈ Finset.Ico 22 24, hourBucket sessions h

/-- `hourBuckets.slice(5, 9)` summed: the morning-band count (hours 5-8). -/
def morningCntOf (sessions : List Session) : ℕ :=
  ∑ h ∈ Finset.Ico 5 9, hourBucket sessions h

/-- `hourBuckets.slice(9, 17)` summed: the afternoon-band count (9-16). -/
def afternoonCntOf (sessions : List Session) : ℕ :=
  ∑ h ∈ Finset.Ico 9 17, hourBucket sessions h

/-- `hourBuckets.slice(17, 22)` summed: the evening-band count (17-21). -/
def eveningCntOf (sessions : List Session) : ℕ :=
  ∑ h ∈ Finset.Ico 17 22, hourBucket sessions h

/-- `nightPct` (cli.mjs lines 215-216). -/
def nightPctOf (sessions : List Session) : ℚ :=
  (nightCntOf sessions : ℚ) / (sessions.length : ℚ)

/-- `morningPct` (line 217). -/
def morningPctOf (sessions : List Session) : ℚ :=
  (morningCntOf sessions : ℚ) / (sessions.length : ℚ)

/-- `afternoonPct` (line 218). -/
def afternoonPctOf (sessions : List Session) : ℚ :=
  (afternoonCntOf sessions : ℚ) / (sessions.length : ℚ)

/-- `eveningPct` (line 219). -/
def eveningPctOf (sessions : List Session) : ℚ :=
  (eveningCntOf sessions : ℚ) / (sessions.length : ℚ)

/-- `weekdayTotal = dayBuckets.slice(1, 6).reduce(..) / 5` (line 226). -/
def weekdayTotalOf (sessions : List Session) : ℚ :=
  ((∑ d ∈ Finset.Ico 1 6, dayBucket sessions d : ℕ) : ℚ) / 5

/-- `weekendTotal = (dayBuckets[0] + dayBuckets[6]) / 2` (line 227). -/
def weekendTotalOf (sessions : List Session) : ℚ :=
  ((dayBucket sessions 0 + dayBucket sessions 6 : ℕ) : ℚ) / 2

/-- `weekendRatio = weekdayTotal > 0 ? weekendTotal / weekdayTotal : 0`
(line 228). -/
def weekendRatioOf (sessions : List Session) : ℚ :=
  if 0 < weekdayTotalOf sessions then weekendTotalOf sessions / weekdayTotalOf sessions
  else 0

/-- `daySet = new Set(sessions.map(s => s.start.toDateString()))`
(line 231), as the finite set of epoch day indices. -/
def activeDateSet (sessions : List Session) : Finset ℤ :=
  (sessions.map fun s => dateOf s.start).toFinset

/-- `allDates = [...daySet].map(d => new Date(d)).sort((a, b) => a - b)`
(line 233): the distinct active dates in ascending order. -/
def allDatesOf (sessions : List Session) : List ℤ :=
  (activeDateSet sessions).sort (· ≤ ·)

/-- `firstDate = allDates[0]` (line 234); default 0 for the empty list,
which `computeStats` never reaches. -/
def firstDateOf (sessions : List Session) : ℤ := (allDatesOf sessions).headD 0

/-- `lastDate = allDates[allDates.length - 1]` (line 235). -/
def lastDateOf (sessions : List Session) : ℤ := (allDatesOf sessions).getLastD 0

/-- `totalDays = Math.ceil((lastDate - firstDate) / 86400000) + 1`
(line 236).  Both dates are date midnights, so their millisecond difference
is an exact multiple of 86400000 and the ceiling-division is the plain
difference of the two day indices. -/
def totalDaysOf (sessions : List Session) : ℤ :=
  (lastDateOf sessions - firstDateOf sessions) + 1

/-- The streak loop of lines 238-247: scan the sorted distinct dates,
continuing the current streak exactly when the delta to the previous date
is one day, otherwise resetting it to 1, tracking the running maximum. -/
def streakScan : ℤ → ℕ → ℕ → List ℤ → ℕ
  | _, _, maxStreak, [] => maxStreak
  | prev, curStreak, maxStreak, d :: rest =>
    if d - prev = 1 then
      let c := curStreak + 1
      streakScan d c (if maxStreak < c then c else maxStreak) rest
    else
      streakScan d 1 maxStreak rest

/-- `maxStreak` after the loop: both counters start at 1 and the loop runs
from index 1 with `allDates[0]` as the first previous date. -/
def maxStreakOf (sessions : List Session) : ℕ :=
  streakScan (firstDateOf sessions) 1 1 (allDatesOf sessions).tail

/-- `avgSessionHours = totalHours / totalSessions` (line 249). -/
def avgSessionHoursOf (sessions : List Session) : ℚ :=
  totalHoursOf sessions / (sessions.length : ℚ)

/-- `peakHour = hourBuckets.indexOf(Math.max(...hourBuckets))` (line 266):
first index attaining the maximum bucket value. -/
def peakHourOf (sessions : List Session) : ℕ :=
  ((List.range 24).map (hourBucket sessions)).indexOf
    (((List.range 24).map (hourBucket sessions)).foldr max 0)

/-- The snapshot record returned by `computeStats` (lines 251-267).
`hourBuckets` and `dayBuckets` are kept as histogram functions;
`projectCount` is 0 at construction and filled in by `main`. -/
structure Stats where
  totalSessions : ℕ
  totalHours : ℚ
  activeDays : ℕ
  totalDays : ℤ
  maxStreak : ℕ
  nightPct : ℚ
  morningPct : ℚ
  afternoonPct : ℚ
  eveningPct : ℚ
  weekendRatio : ℚ
  avgSessionHours : ℚ
  hourBuckets : ℕ → ℕ
  dayBuckets : ℕ → ℕ
  projectCount : ℕ
  peakHour : ℕ

/-- The snapshot `computeStats` builds for a non-empty session list. -/
def statsOf (sessions : List Session) : Stats where
  totalSessions := sessions.length
  totalHours := totalHoursOf sessions
  activeDays := (activeDateSet sessions).card
  totalDays := totalDaysOf sessions
  maxStreak := maxStreakOf sessions
  nightPct := nightPctOf sessions
  morningPct := morningPctOf sessions
  afternoonPct := afternoonPctOf sessions
  eveningPct := eveningPctOf sessions
  weekendRatio := weekendRatioOf sessions
  avgSessionHours := avgSessionHoursOf sessions
  hourBuckets := hourBucket sessions
  dayBuckets := dayBucket sessions
  projectCount := 0
  peakHour := peakHourOf sessions

/-- `computeStats` (lines 204-268): `if (sessions.length === 0) return null`,
otherwise the snapshot. -/
def computeStats (sessions : List Session) : Option Stats :=
  if sessions.length = 0 then none else some (statsOf sessions)

/-- `stats.projectCount = projectCount` performed by `main` (line 345)
right after `computeStats(sessions)` (line 344): the aggregation operation
of the spec's contract `aggregate(sessions, projectCount)`. -/
def computeStatsWithProjects (sessions : List Session) (projectCount : ℕ) :
    Option Stats :=
  (computeStats sessions).map fun st => { st with projectCount := projectCount }

/-- One archetype rule: its `id` and its `condition` predicate.  Display
strings (name, jp, tagline, description) are presentation data read by no
predicate and are omitted from the model. -/
structure Archetype where
  id : String
  condition : Stats → Bool

/-- The `ARCHETYPES` table (cli.mjs lines 119-200), in declaration order. -/
def ARCHETYPES : List Archetype :=
  [⟨"night_beast", fun s => decide (s.nightPct ≥ 0.30)⟩,
   ⟨"dawn_coder", fun s => decide (s.morningPct ≥ 0.40)⟩,
   ⟨"machine", fun s => decide (s.maxStreak ≥ 30)⟩,
   ⟨"weekend_warrior", fun s => decide (s.weekendRatio ≥ 1.8)⟩,
   ⟨"burst_genius", fun s =>
     decide (0 < s.activeDays ∧ (s.totalDays : ℚ) / (s.activeDays : ℚ) ≥ 2.5)⟩,
   ⟨"disciplined", fun s =>
     decide (0 < s.activeDays ∧ (s.totalDays : ℚ) / (s.activeDays : ℚ) < 1.3 ∧
       s.totalHours / (s.activeDays : ℚ) < 6)⟩,
   ⟨"session_monster", fun s => decide (s.avgSessionHours ≥ 2.5)⟩,
   ⟨"micro_shipper", fun s =>
     decide ((s.totalSessions : ℚ) / (s.activeDays : ℚ) ≥ 15)⟩,
   ⟨"explorer", fun s => decide (s.projectCount ≥ 20)⟩,
   ⟨"mono_focused", fun s => decide (s.projectCount ≤ 3 ∧ s.totalSessions ≥ 100)⟩]

/-- The `machineArchetype` rebuilt inside `getArchetype` (lines 274-281):
identical `id` and `condition`; only its description string (which embeds
`stats.maxStreak`) differs, and descriptions are not modelled. -/
def machineArchetype : Archetype :=
  ⟨"machine", fun s => decide (s.maxStreak ≥ 30)⟩

/-- The default archetype returned when no rule matches (lines 294-300).
The source object carries no `condition`; the `fun _ => true` here is a
placeholder that `getArchetype` never consults. -/
def balancedArchetype : Archetype := ⟨"balanced", fun _ => true⟩

/-- `getArchetype` (lines 272-301): swap the `machine` entry for the
description-parameterized copy, scan the rules in declaration order, return
the first whose condition holds, else the balanced default. -/
def getArchetype (stats : Stats) : Archetype :=
  ((ARCHETYPES.map fun a => if a.id = "machine" then machineArchetype else a).find?
    (fun a => a.condition stats)).getD balancedArchetype

/-- The `main` pipeline around the core (lines 328-347): exit early on zero
sessions (the classifier is never invoked), otherwise aggregate with the
externally counted `projectCount` and classify. -/
def runPipeline (sessions : List Session) (projectCount : ℕ) : Option Archetype :=
  if sessions.length = 0 then none
  else (computeStatsWithProjects sessions projectCount).map getArchetype

/-- The short-span branch of `reconstruct`: a raw span below the 1-hour
cutoff (`SESSION_GAP_HOURS * 2`) yields the single clamped session. -/
theorem reconstruct_short (obs : RawObservation) (h : durationHoursOf obs < 1) :
    reconstruct obs =
      [{ start := obs.firstTimestamp,
         endTime := obs.lastTimestamp.getD obs.firstTimestamp,
         hours := max (durationHoursOf obs) 0.01 }] := by
  have h1 : SESSION_GAP_HOURS * 2 = (1 : ℚ) := by norm_num [SESSION_GAP_HOURS]
  simp only [reconstruct, durationHoursOf] at h ⊢
  rw [if_pos (by rw [h1]; exact h)]

/-- The long-span branch of `reconstruct`: a span of at least 1 hour is
split into `⌈durationHours / 2⌉` evenly spaced sub-sessions. -/
theorem reconstruct_long (obs : RawObservation) (h : 1 ≤ durationHoursOf obs) :
    reconstruct obs =
      (List.range (Int.ceil (durationHoursOf obs / 2)).toNat).map fun i : ℕ =>
        { start := obs.firstTimestamp +
            ((i : ℚ) / ((Int.ceil (durationHoursOf obs / 2)).toNat : ℚ)) *
              (obs.lastTimestamp.getD obs.firstTimestamp - obs.firstTimestamp),
          endTime := obs.firstTimestamp +
            ((i : ℚ) / ((Int.ceil (durationHoursOf obs / 2)).toNat : ℚ)) *
              (obs.lastTimestamp.getD obs.firstTimestamp - obs.firstTimestamp),
          hours := durationHoursOf obs /
            (((Int.ceil (durationHoursOf obs / 2)).toNat : ℚ)) } := by
  have h1 : SESSION_GAP_HOURS * 2 = (1 : ℚ) := by norm_num [SESSION_GAP_HOURS]
  have hceil : (0 : ℤ) < Int.ceil (durationHoursOf obs / 2) :=
    Int.ceil_pos.mpr (by linarith)
  have hmax : max 1 (Int.ceil (durationHoursOf obs / 2)).toNat
      = (Int.ceil (durationHoursOf obs / 2)).toNat := by omega
  simp only [reconstruct, durationHoursOf] at h hceil hmax ⊢
  rw [if_neg (by rw [h1]; exact not_lt.mpr h), hmax]

/-- Positivity of the sub-session count for a span of at least 1 hour. -/
theorem numSubs_pos (obs : RawObservation) (h : 1 ≤ durationHoursOf obs) :
    0 < (Int.ceil (durationHoursOf obs / 2)).toNat := by
  have hceil : (0 : ℤ) < Int.ceil (durationHoursOf obs / 2) :=
    Int.ceil_pos.mpr (by linarith)
  omega

/-- C2: for every observation whose raw span is at least 1 hour,
reconstruction emits exactly `⌈durationHours / 2⌉` sub-sessions, the i-th
starting at `start + (i / numSubs) * (end - start)` with its end equal to
its own start and duration `durationHours / numSubs`, and the sub-session
durations sum exactly to the original `durationHours`. -/
theorem claim_C2 (obs : RawObservation) (h : 1 ≤ durationHoursOf obs) :
    (reconstruct obs).length = (Int.ceil (durationHoursOf obs / 2)).toNat ∧
    reconstruct obs =
      (List.range (Int.ceil (durationHoursOf obs / 2)).toNat).map (fun i : ℕ =>
        { start := obs.firstTimestamp +
            ((i : ℚ) / ((Int.ceil (durationHoursOf obs / 2)).toNat : ℚ)) *
              (obs.lastTimestamp.getD obs.firstTimestamp - obs.firstTimestamp),
          endTime := obs.firstTimestamp +
            ((i : ℚ) / ((Int.ceil (durationHoursOf obs / 2)).toNat : ℚ)) *
              (obs.lastTimestamp.getD obs.firstTimestamp - obs.firstTimestamp),
          hours := durationHoursOf obs /
            (((Int.ceil (durationHoursOf obs / 2)).toNat : ℚ)) }) ∧
    ((reconstruct obs).map Session.hours).sum = durationHoursOf obs := by
  have hL := reconstruct_long obs h
  have hn : ((Int.ceil (durationHoursOf obs / 2)).toNat : ℚ) ≠ 0 := by
    exact_mod_cast (numSubs_pos obs h).ne'
  refine ⟨by rw [hL]; simp, hL, ?_⟩
  rw [hL, List.map_map]
  have hcomp : (Session.hours ∘ fun i : ℕ =>
      ({ start := obs.firstTimestamp +
            ((i : ℚ) / ((Int.ceil (durationHoursOf obs / 2)).toNat : ℚ)) *
              (obs.lastTimestamp.getD obs.firstTimestamp - obs.firstTimestamp),
          endTime := obs.firstTimestamp +
            ((i : ℚ) / ((Int.ceil (durationHoursOf obs / 2)).toNat : ℚ)) *
              (obs.lastTimestamp.getD obs.firstTimestamp - obs.firstTimestamp),
          hours := durationHoursOf obs /
            (((Int.ceil (durationHoursOf obs / 2)).toNat : ℚ)) } : Session)) =
      fun _ : ℕ => durationHoursOf obs /
        (((Int.ceil (durationHoursOf obs / 2)).toNat : ℚ)) := rfl
  rw [hcomp, List.map_const', List.length_range, List.sum_replicate, nsmul_eq_mul,
    mul_comm, div_mul_cancel₀ _ hn]

/-- C3: for every observation whose raw span is under 1 hour, reconstruction
emits exactly one session keeping the observation's two timestamps, with
duration `max(durationHours, 0.01)`, hence at least `0.01`. -/
theorem claim_C3 (obs : RawObservation) (h : durationHoursOf obs < 1) :
    reconstruct obs =
      [{ start := obs.firstTimestamp,
         endTime := obs.lastTimestamp.getD obs.firstTimestamp,
         hours := max (durationHoursOf obs) 0.01 }] ∧
    ∀ s ∈ reconstruct obs, 0.01 ≤ s.hours := by
  refine ⟨reconstruct_short obs h, ?_⟩
  intro s hs
  rw [reconstruct_short obs h, List.mem_singleton] at hs
  subst hs
  exact le_max_right _ _

/-- C9: every session emitted by reconstruction has `hours ≥ 0.01`, in the
short-span branch by the explicit clamp and in the long-span branch because
`durationHours / ⌈durationHours / 2⌉ ≥ 0.01` whenever `durationHours ≥ 1`. -/
theorem claim_C9 (obs : RawObservation) (s : Session) (hs : s ∈ reconstruct obs) :
    0.01 ≤ s.hours := by
  by_cases hd : durationHoursOf obs < 1
  · rw [reconstruct_short obs hd, List.mem_singleton] at hs
    subst hs
    exact le_max_right _ _
  · push_neg at hd
    rw [reconstruct_long obs hd, List.mem_map] at hs
    obtain ⟨i, _, rfl⟩ := hs
    have hceil : (0 : ℤ) < Int.ceil (durationHoursOf obs / 2) :=
      Int.ceil_pos.mpr (by linarith)
    have hnQ : (0 : ℚ) < ((Int.ceil (durationHoursOf obs / 2)).toNat : ℚ) := by
      exact_mod_cast numSubs_pos obs hd
    have hub : ((Int.ceil (durationHoursOf obs / 2)).toNat : ℚ)
        < durationHoursOf obs / 2 + 1 := by
      calc ((Int.ceil (durationHoursOf obs / 2)).toNat : ℚ)
          = ((Int.ceil (durationHoursOf obs / 2) : ℤ) : ℚ) := by
            exact_mod_cast Int.toNat_of_nonneg hceil.le
        _ < durationHoursOf obs / 2 + 1 := Int.ceil_lt_add_one _
    show (0.01 : ℚ) ≤ durationHoursOf obs /
      (((Int.ceil (durationHoursOf obs / 2)).toNat : ℚ))
    rw [le_div_iff₀ hnQ]
    nlinarith [hub, hd]

/-- C10: an observation whose last timestamp is strictly earlier than its
first has a negative raw span, so the short-span branch applies and the
clamp makes the single emitted session's duration exactly `0.01`, keeping
the observation's timestamps as `start` and `end`. -/
theorem claim_C10 (obs : RawObservation) (t : ℚ)
    (hlast : obs.lastTimestamp = some t) (hneg : t < obs.firstTimestamp) :
    reconstruct obs =
      [{ start := obs.firstTimestamp, endTime := t, hours := 0.01 }] := by
  have hd : durationHoursOf obs < 0.01 := by
    unfold durationHoursOf
    rw [hlast, Option.getD_some]
    have hlt : t - obs.firstTimestamp < 0 := by linarith
    calc (t - obs.firstTimestamp) / 3600000 < 0 :=
          div_neg_of_neg_of_pos hlt (by norm_num)
      _ < 0.01 := by norm_num
  rw [reconstruct_short obs (hd.trans (by norm_num))]
  rw [hlast, Option.getD_some, max_eq_right hd.le]

/-- Witness for C2 at a 10-hour span: the five 2-hour sub-sessions sum back
to the original duration. -/
theorem claim_C2_witness :
    ((reconstruct ⟨0, some 36000000⟩).map Session.hours).sum
      = durationHoursOf ⟨0, some 36000000⟩ :=
  (claim_C2 ⟨0, some 36000000⟩ (by norm_num [durationHoursOf])).2.2

/-- Witness for C3 at a half-hour span. -/
theorem claim_C3_witness :
    reconstruct ⟨0, some 1800000⟩ =
      [{ start := (0 : ℚ), endTime := 1800000,
         hours := max (durationHoursOf ⟨0, some 1800000⟩) 0.01 }] :=
  (claim_C3 ⟨0, some 1800000⟩ (by norm_num [durationHoursOf])).1

/-- Witness for C9 at a zero-length span. -/
theorem claim_C9_witness :
    (0.01 : ℚ) ≤ (Session.mk 0 36000 0.01).hours :=
  claim_C9 ⟨0, some 36000⟩ ⟨0, 36000, 0.01⟩
    (by norm_num [reconstruct, SESSION_GAP_HOURS])

/-- Witness for C10 at a span that runs one hour backwards. -/
theorem claim_C10_witness :
    reconstruct ⟨3600000, some 0⟩ =
      [{ start := (3600000 : ℚ), endTime := 0, hours := 0.01 }] :=
  claim_C10 ⟨3600000, some 0⟩ 0 rfl (by norm_num)

/-- The aggregator's guard: a non-empty session list always yields the
snapshot. -/
theorem computeStats_eq (sessions : List Session) (h : sessions ≠ []) :
    computeStats sessions = some (statsOf sessions) := by
  simp [computeStats, List.length_eq_zero, h]

/-- Every hour of day lands in a bucket index below 24. -/
theorem getHours_lt (ms : ℚ) : getHours ms < 24 := by
  unfold getHours
  have h1 : 0 ≤ ⌊ms / 3600000⌋ % 24 := Int.emod_nonneg _ (by norm_num)
  have h2 : ⌊ms / 3600000⌋ % 24 < 24 := Int.emod_lt_of_pos _ (by norm_num)
  omega

/-- Unfolding one session out of an hour bucket count. -/
theorem hourBucket_cons (x : Session) (xs : List Session) (h : ℕ) :
    hourBucket (x :: xs) h = (if getHours x.start = h then 1 else 0) + hourBucket xs h := by
  simp only [hourBucket, List.filter_cons]
  by_cases hx : getHours x.start = h
  · simp [hx, Nat.add_comm]
  · simp [hx]

/-- The 24 hour buckets partition the sessions. -/
theorem sum_hourBucket (l : List Session) :
    ∑ h ∈ Finset.range 24, hourBucket l h = l.length := by
  induction l with
  | nil => simp [hourBucket]
  | cons x xs ih =>
    have hmem : getHours x.start ∈ Finset.range 24 :=
      Finset.mem_range.mpr (getHours_lt _)
    simp only [hourBucket_cons, Finset.sum_add_distrib, ih, List.length_cons,
      Finset.sum_ite_eq, hmem, if_pos]
    omega

/-- The four time-of-day bands partition the sessions. -/
theorem bands_sum (l : List Session) :
    nightCntOf l + morningCntOf l + afternoonCntOf l + eveningCntOf l = l.length := by
  have h09 : (∑ h ∈ Finset.Ico 0 5, hourBucket l h) + ∑ h ∈ Finset.Ico 5 9, hourBucket l h
      = ∑ h ∈ Finset.Ico 0 9, hourBucket l h :=
    Finset.sum_Ico_consecutive _ (by norm_num) (by norm_num)
  have h017 : (∑ h ∈ Finset.Ico 0 9, hourBucket l h) + ∑ h ∈ Finset.Ico 9 17, hourBucket l h
      = ∑ h ∈ Finset.Ico 0 17, hourBucket l h :=
    Finset.sum_Ico_consecutive _ (by norm_num) (by norm_num)
  have h022 : (∑ h ∈ Finset.Ico 0 17, hourBucket l h) + ∑ h ∈ Finset.Ico 17 22, hourBucket l h
      = ∑ h ∈ Finset.Ico 0 22, hourBucket l h :=
    Finset.sum_Ico_consecutive _ (by norm_num) (by norm_num)
  have h024 : (∑ h ∈ Finset.Ico 0 22, hourBucket l h) + ∑ h ∈ Finset.Ico 22 24, hourBucket l h
      = ∑ h ∈ Finset.Ico 0 24, hourBucket l h :=
    Finset.sum_Ico_consecutive _ (by norm_num) (by norm_num)
  have h24 := sum_hourBucket l
  rw [Finset.range_eq_Ico] at h24
  unfold nightCntOf morningCntOf afternoonCntOf eveningCntOf
  rw [Finset.range_eq_Ico]
  omega

/-- C4: for every snapshot produced from a non-empty session list, the four
time-of-day fractions sum exactly to 1: the bands partition the 24 hour
buckets and each fraction divides by the same `totalSessions`. -/
theorem claim_C4 (l : List Session) (h : l ≠ []) :
    computeStats l = some (statsOf l) ∧
    (statsOf l).nightPct + (statsOf l).morningPct + (statsOf l).afternoonPct +
      (statsOf l).eveningPct = 1 := by
  refine ⟨computeStats_eq l h, ?_⟩
  have hN : ((l.length : ℚ)) ≠ 0 :=
    Nat.cast_ne_zero.mpr (List.length_pos.mpr h).ne'
  show nightPctOf l + morningPctOf l + afternoonPctOf l + eveningPctOf l = 1
  unfold nightPctOf morningPctOf afternoonPctOf eveningPctOf
  rw [div_add_div_same, div_add_div_same, div_add_div_same]
  have hb : ((nightCntOf l : ℚ)) + morningCntOf l + afternoonCntOf l + eveningCntOf l
      = ((l.length : ℚ)) := by exact_mod_cast bands_sum l
  rw [hb, div_self hN]

/-- C5: the aggregation operation of the contract
`aggregate(sessions, projectCount)` — `computeStats` followed by `main`'s
`stats.projectCount = projectCount` — stores the supplied project count
unchanged in the snapshot. -/
theorem claim_C5 (l : List Session) (h : l ≠ []) (p : ℕ) :
    computeStatsWithProjects l p = some { statsOf l with projectCount := p } ∧
      ({ statsOf l with projectCount := p } : Stats).projectCount = p := by
  refine ⟨?_, rfl⟩
  rw [computeStatsWithProjects, computeStats_eq l h, Option.map_some']

/-- C6: the empty session list yields no snapshot (`computeStats` returns
the null result, and `main` exits before the classifier can run), while
every non-empty list yields one. -/
theorem claim_C6 :
    computeStats ([] : List Session) = none ∧
      (∀ p : ℕ, runPipeline [] p = none) ∧
      ∀ l : List Session, l ≠ [] → computeStats l = some (statsOf l) :=
  ⟨rfl, fun _ => rfl, fun l h => computeStats_eq l h⟩

/-- The running maximum of the streak scan never decreases. -/
theorem streakScan_init_le (l : List ℤ) :
    ∀ (prev : ℤ) (cur maxS : ℕ), maxS ≤ streakScan prev cur maxS l := by
  induction l with
  | nil => intro prev cur maxS; exact le_refl _
  | cons d rest ih =>
    intro prev cur maxS
    simp only [streakScan]
    by_cases hd : d - prev = 1
    · rw [if_pos hd]
      exact le_trans (by split <;> omega) (ih d (cur + 1) _)
    · rw [if_neg hd]
      exact ih d 1 maxS

/-- Invariant bound for the streak scan over a strictly increasing date
list: if the current streak of length `cur` ending at `prev` started no
earlier than `f`, the final maximum streak is at most the inclusive span
from `f` to the last date. -/
theorem streakScan_le (l : List ℤ) :
    ∀ (prev f : ℤ) (cur maxS : ℕ), List.Chain (· < ·) prev l → 1 ≤ cur →
      (cur : ℤ) ≤ prev - f + 1 → (maxS : ℤ) ≤ prev - f + 1 →
      (streakScan prev cur maxS l : ℤ) ≤ l.getLastD prev - f + 1 := by
  induction l with
  | nil =>
    intro prev f cur maxS _ _ _ hmax
    simpa [streakScan] using hmax
  | cons d rest ih =>
    intro prev f cur maxS hchain hcur1 hcur hmax
    rcases List.chain_cons.mp hchain with ⟨hpd, hchain'⟩
    rw [List.getLastD_cons]
    simp only [streakScan]
    by_cases hd : d - prev = 1
    · rw [if_pos hd]
      refine ih d f (cur + 1) (if maxS < cur + 1 then cur + 1 else maxS) hchain'
        (by omega) (by push_cast; omega) ?_
      split <;> push_cast <;> omega
    · rw [if_neg hd]
      exact ih d f 1 maxS hchain' le_rfl (by push_cast at hcur ⊢; omega)
        (by omega)

/-- The sorted distinct date list of a non-empty session list is
non-empty. -/
theorem allDatesOf_ne_nil (l : List Session) (h : l ≠ []) : allDatesOf l ≠ [] := by
  obtain ⟨x, xs, rfl⟩ := List.exists_cons_of_ne_nil h
  have hx : dateOf x.start ∈ activeDateSet (x :: xs) := by
    simp [activeDateSet]
  exact List.ne_nil_of_mem ((Finset.mem_sort _).mpr hx)

/-- The date list is sorted strictly ascending (distinct dates). -/
theorem allDatesOf_sorted (l : List Session) :
    List.Sorted (· < ·) (allDatesOf l) :=
  Finset.sort_sorted_lt _

/-- The streak starts from 1, so it is always at least 1. -/
theorem one_le_maxStreakOf (l : List Session) : 1 ≤ maxStreakOf l :=
  streakScan_init_le _ _ _ _

/-- The longest streak never exceeds the inclusive day span. -/
theorem maxStreakOf_le (l : List Session) (h : l ≠ []) :
    (maxStreakOf l : ℤ) ≤ totalDaysOf l := by
  obtain ⟨d0, rest, hE⟩ := List.exists_cons_of_ne_nil (allDatesOf_ne_nil l h)
  have hsort := allDatesOf_sorted l
  rw [hE] at hsort
  have hchain : List.Chain (· < ·) d0 rest := List.chain'_iff_pairwise.mpr hsort
  have hfirst : firstDateOf l = d0 := by rw [firstDateOf, hE]; rfl
  have hlastd : lastDateOf l = rest.getLastD d0 := by
    rw [lastDateOf, hE, List.getLastD_cons]
  have hms : maxStreakOf l = streakScan d0 1 1 rest := by
    rw [maxStreakOf, hfirst, hE, List.tail_cons]
  have hbound := streakScan_le rest d0 d0 1 1 hchain le_rfl (by omega) (by omega)
  rw [hms, totalDaysOf, hfirst, hlastd]
  omega

/-- C7: every snapshot from a non-empty session list has
`1 ≤ maxStreak ≤ totalDays`, with the streak computed by the sorted
consecutive-date scan and `totalDays` the inclusive first-to-last span. -/
theorem claim_C7 (l : List Session) (h : l ≠ []) :
    computeStats l = some (statsOf l) ∧ 1 ≤ (statsOf l).maxStreak ∧
      ((statsOf l).maxStreak : ℤ) ≤ (statsOf l).totalDays :=
  ⟨computeStats_eq l h, one_le_maxStreakOf l, maxStreakOf_le l h⟩

/-- C8: the snapshot's weekend ratio is the weekend average over the
weekday average when the latter is non-zero, is 0 when the weekday average
is 0, and is always a defined non-negative rational. -/
theorem claim_C8 (l : List Session) (h : l ≠ []) :
    computeStats l = some (statsOf l) ∧
      ((((∑ d ∈ Finset.Ico 1 6, (statsOf l).dayBuckets d : ℕ) : ℚ) / 5 ≠ 0 →
        (statsOf l).weekendRatio =
          ((((statsOf l).dayBuckets 0 + (statsOf l).dayBuckets 6 : ℕ) : ℚ) / 2) /
            (((∑ d ∈ Finset.Ico 1 6, (statsOf l).dayBuckets d : ℕ) : ℚ) / 5)) ∧
      ((((∑ d ∈ Finset.Ico 1 6, (statsOf l).dayBuckets d : ℕ) : ℚ) / 5 = 0 →
        (statsOf l).weekendRatio = 0) ∧
      0 ≤ (statsOf l).weekendRatio)) := by
  have hnn : 0 ≤ weekdayTotalOf l := by unfold weekdayTotalOf; positivity
  refine ⟨computeStats_eq l h, ?_, ?_, ?_⟩
  · intro hne
    have hpos : 0 < weekdayTotalOf l := lt_of_le_of_ne hnn (Ne.symm hne)
    show weekendRatioOf l = weekendTotalOf l / weekdayTotalOf l
    rw [weekendRatioOf, if_pos hpos]
  · intro hz
    show weekendRatioOf l = 0
    rw [weekendRatioOf, if_neg]
    rw [show weekdayTotalOf l = 0 from hz]
    exact lt_irrefl 0
  · show 0 ≤ weekendRatioOf l
    rw [weekendRatioOf]
    split
    · exact div_nonneg (by unfold weekendTotalOf; positivity) hnn
    · exact le_refl 0

/-- Witness for C4 on a single one-hour midnight session. -/
theorem claim_C4_witness :
    computeStats [({ start := 0, endTime := 0, hours := 1 } : Session)] =
        some (statsOf [{ start := 0, endTime := 0, hours := 1 }]) ∧
      (statsOf [({ start := 0, endTime := 0, hours := 1 } : Session)]).nightPct +
        (statsOf [({ start := 0, endTime := 0, hours := 1 } : Session)]).morningPct +
        (statsOf [({ start := 0, endTime := 0, hours := 1 } : Session)]).afternoonPct +
        (statsOf [({ start := 0, endTime := 0, hours := 1 } : Session)]).eveningPct = 1 :=
  claim_C4 [{ start := 0, endTime := 0, hours := 1 }] (by simp)

/-- Witness for C5 with a supplied project count of 7. -/
theorem claim_C5_witness :
    computeStatsWithProjects [({ start := 0, endTime := 0, hours := 2 } : Session)] 7 =
        some { statsOf [{ start := 0, endTime := 0, hours := 2 }] with projectCount := 7 } ∧
      ({ statsOf [({ start := 0, endTime := 0, hours := 2 } : Session)] with
          projectCount := 7 } : Stats).projectCount = 7 :=
  claim_C5 [{ start := 0, endTime := 0, hours := 2 }] (by simp) 7

/-- Witness for C6 on the empty list and a singleton list. -/
theorem claim_C6_witness :
    runPipeline [] 0 = none ∧
      computeStats [({ start := 0, endTime := 0, hours := 3 } : Session)] =
        some (statsOf [{ start := 0, endTime := 0, hours := 3 }]) :=
  ⟨claim_C6.2.1 0, claim_C6.2.2 [{ start := 0, endTime := 0, hours := 3 }] (by simp)⟩

/-- Witness for C7 on a single session. -/
theorem claim_C7_witness :
    ((statsOf [({ start := 0, endTime := 0, hours := 4 } : Session)]).maxStreak : ℤ) ≤
      (statsOf [({ start := 0, endTime := 0, hours := 4 } : Session)]).totalDays :=
  (claim_C7 [{ start := 0, endTime := 0, hours := 4 }] (by simp)).2.2

/-- Witness for C8 on a single session. -/
theorem claim_C8_witness :
    0 ≤ (statsOf [({ start := 0, endTime := 0, hours := 5 } : Session)]).weekendRatio :=
  (claim_C8 [{ start := 0, endTime := 0, hours := 5 }] (by simp)).2.2.2

/-- C1: the classifier scans the rules in their fixed declaration order and
returns the first whose predicate holds, with the fixed balanced default
when none matches; in particular a snapshot satisfying both rule 1
(`nightPct ≥ 0.30`, midnight beast) and rule 3 (`maxStreak ≥ 30`,
unstoppable machine) is classified as rule 1's `night_beast`. -/
theorem claim_C1 (stats : Stats) (h1 : stats.nightPct ≥ 0.30)
    (h2 : stats.maxStreak ≥ 30) :
    (getArchetype stats).id = "night_beast" ∧
      ∀ t : Stats, (∀ a ∈ ARCHETYPES, a.condition t = false) →
        (getArchetype t).id = "balanced" := by
  constructor
  · rw [getArchetype, ARCHETYPES, List.map_cons, if_neg (by decide),
      List.find?_cons_of_pos _ (by exact decide_eq_true h1)]
    rfl
  · intro t ht
    rcases hfind : (ARCHETYPES.map fun a =>
        if a.id = "machine" then machineArchetype else a).find?
        (fun a => a.condition t) with _ | a
    · rw [getArchetype, hfind]
      rfl
    · exfalso
      have hcond := List.find?_some hfind
      have hmem := List.mem_of_find?_eq_some hfind
      rw [List.mem_map] at hmem
      obtain ⟨a', hmem', rfl⟩ := hmem
      by_cases hid : a'.id = "machine"
      · rw [if_pos hid] at hcond
        have hm : (⟨"machine", fun s => decide (s.maxStreak ≥ 30)⟩ : Archetype)
            ∈ ARCHETYPES := by
          rw [ARCHETYPES]; simp
        exact absurd hcond (ne_true_of_eq_false (ht _ hm))
      · rw [if_neg hid] at hcond
        exact absurd hcond (ne_true_of_eq_false (ht a' hmem'))

/-- Witness for C1: a snapshot with `nightPct = 1` and `maxStreak = 30`
satisfies rules 1 and 3 and is classified `night_beast`. -/
theorem claim_C1_witness :
    (getArchetype
      { totalSessions := 1, totalHours := 1, activeDays := 1, totalDays := 1,
        maxStreak := 30, nightPct := 1, morningPct := 0, afternoonPct := 0,
        eveningPct := 0, weekendRatio := 0, avgSessionHours := 1,
        hourBuckets := fun _ => 0, dayBuckets := fun _ => 0,
        projectCount := 0, peakHour := 0 }).id = "night_beast" :=
  (claim_C1 _ (by norm_num) (by norm_num)).1

end CCPersonality
